import Mathlib

/-!
Verification of the fuzzy traffic light controller
(Controller_Model/fuzzy_traffic_controller.py, Codes/Utils/helpers.py).

The code of the repository configures a Mamdani fuzzy inference system —
universes, membership functions, the 25-rule base with OR antecedents,
input validation, and the evaluation call — and delegates the inference
algorithm itself to the scikit-fuzzy library, whose source is not part of
the repository.  Definitions taken from the files of the repository keep
the names of the source; the inference-algorithm pieces that live only in
the library are modelled from the specification (the data model of its §3
and the pipeline of its §4.4) and are marked as such in their doc
comments.  Crisp values and membership degrees are rationals; every
breakpoint of every triangle is an integer, so the piecewise-linear
interpolation the library performs on the integer-sampled universes agrees
with the exact triangle formula used here.
-/

namespace FuzzyTraffic

/-- Modelled from the spec: MembershipFunction (§3) — the triangular
membership shape with breakpoints a ≤ b ≤ c used by fuzz.trimf: degree 0
outside the interval from a to c, rising linearly from a to b, falling
linearly from b to c, peak 1 at b.  All triangles in this system have
strict a < b < c. -/
def trimf (a b c x : ℚ) : ℚ :=
  if x ≤ a then 0
  else if x ≤ b then (x - a) / (b - a)
  else if x ≤ c then (c - x) / (c - b)
  else 0

/-- Modelled from the spec: automatic five-term generation (automf, §4.2)
over the input universe from 0 to 100: five evenly spaced triangles with
peaks at 0, 25, 50, 75, 100 and half-width 25, so consecutive terms cross
over at degree 1/2.  Term index k stands for the k-th name in the ordered
name list of the variable (minimal, light, average, heavy, standstill for
waiting_cars; minimal, light, average, heavy, excess for incoming_cars —
both variables are independent instantiations of the same generation over
the same universe). -/
def autoTerm (k : Fin 5) (x : ℚ) : ℚ :=
  trimf (25 * (k.val : ℚ) - 25) (25 * (k.val : ℚ)) (25 * (k.val : ℚ) + 25) x

/-- Source line: wait_time[short] = fuzz.trimf(universe, [0, 50, 75]). -/
def shortMF (x : ℚ) : ℚ := trimf 0 50 75 x

/-- Source line: wait_time[medium] = fuzz.trimf(universe, [50, 87, 125]). -/
def mediumMF (x : ℚ) : ℚ := trimf 50 87 125 x

/-- Source line: wait_time[long] = fuzz.trimf(universe, [100, 150, 160]). -/
def longMF (x : ℚ) : ℚ := trimf 100 150 160 x

/-- The three output terms of the consequent variable wait_time. -/
inductive OutTerm
  | short
  | medium
  | long
deriving DecidableEq, Repr

/-- Membership curve of an output term over the output universe. -/
def outMF : OutTerm → ℚ → ℚ
  | .short => shortMF
  | .medium => mediumMF
  | .long => longMF

/-- One fuzzy rule, ctrl.Rule(waiting_cars[w] | incoming_cars[i],
wait_time[o]): the antecedent is the OR of the two input-term memberships,
the consequent a single output term. -/
structure Rule where
  waitingTerm : Fin 5
  incomingTerm : Fin 5
  out : OutTerm
deriving DecidableEq, Repr

/-- The 25-rule base of TrafficLightControl._setup_fuzzy_system, in source
order.  Waiting-term index: minimal 0, light 1, average 2, heavy 3,
standstill 4; incoming-term index: minimal 0, light 1, average 2, heavy 3,
excess 4. -/
def rules : List Rule :=
  [⟨0, 0, .short⟩, ⟨0, 1, .short⟩, ⟨0, 2, .medium⟩, ⟨0, 3, .long⟩, ⟨0, 4, .long⟩,
   ⟨1, 0, .short⟩, ⟨1, 1, .short⟩, ⟨1, 2, .medium⟩, ⟨1, 3, .medium⟩, ⟨1, 4, .long⟩,
   ⟨2, 0, .short⟩, ⟨2, 1, .medium⟩, ⟨2, 2, .medium⟩, ⟨2, 3, .long⟩, ⟨2, 4, .long⟩,
   ⟨3, 0, .medium⟩, ⟨3, 1, .medium⟩, ⟨3, 2, .long⟩, ⟨3, 3, .long⟩, ⟨3, 4, .long⟩,
   ⟨4, 0, .medium⟩, ⟨4, 1, .long⟩, ⟨4, 2, .long⟩, ⟨4, 3, .long⟩, ⟨4, 4, .long⟩]

/-- Modelled from the spec: firing strength of a rule (§3, §4.3) — the OR
combination (maximum) of the membership degrees of the two antecedent
(variable, term) references at the crisp inputs. -/
def firingStrength (r : Rule) (incoming waiting : ℚ) : ℚ :=
  max (autoTerm r.waitingTerm waiting) (autoTerm r.incomingTerm incoming)

/-- Modelled from the spec: fire-and-clip plus aggregation (§4.4 steps
2 and 3) — each rule caps the curve of its output term at its firing
strength, and the aggregated output degree at a point y of the output
universe is the pointwise maximum of all clipped curves. -/
def aggregated (incoming waiting y : ℚ) : ℚ :=
  (rules.map (fun r => min (firingStrength r incoming waiting) (outMF r.out y))).foldr max 0

/-- The aggregated output fuzzy curve sampled on the 161-point output
universe 0, 1, …, 160 (np.arange(0, 161, 1)). -/
def aggregatedCurve (incoming waiting : ℚ) : ℕ → ℚ :=
  fun i => aggregated incoming waiting (i : ℚ)

/-- Modelled from the spec: the numerator Σ (x_i * degree_i) of the
centroid over the 161 output sample points (§4.4 step 4). -/
def curveNum (μ : ℕ → ℚ) : ℚ := ∑ i in Finset.range 161, (i : ℚ) * μ i

/-- Modelled from the spec: the denominator Σ degree_i of the centroid
over the 161 output sample points (§4.4 step 4). -/
def curveDen (μ : ℕ → ℚ) : ℚ := ∑ i in Finset.range 161, μ i

/-- Modelled from the spec: centroid defuzzification (§4.4 step 4) with
the defensive guard — if the sampled aggregated curve sums to zero (an
identically zero curve), signal NoRuleFiredError instead of dividing by
zero. -/
def defuzzCentroid (μ : ℕ → ℚ) : Except String ℚ :=
  if curveDen μ = 0 then .error "NoRuleFiredError"
  else .ok (curveNum μ / curveDen μ)

/-- The crisp wait time as a total function: numerator over denominator of
the centroid of the aggregated curve. -/
def crispWaitTime (incoming waiting : ℚ) : ℚ :=
  curveNum (aggregatedCurve incoming waiting) / curveDen (aggregatedCurve incoming waiting)

/-- Python Codes/Utils/helpers.py, validate_input_range: raises ValueError
unless 0 <= value <= 100. -/
def validate_input_range (value : ℚ) (name : String) : Except String Unit :=
  if 0 ≤ value ∧ value ≤ 100 then Except.ok ()
  else Except.error (name ++ " must be between 0 and 100.")

/-- The mutable state of the shared ControlSystemSimulation session: the
stored crisp input assignments and the last computed output. -/
structure SimState where
  waitingIn : Option ℚ
  incomingIn : Option ℚ
  waitTimeOut : Option ℚ
deriving DecidableEq, Repr

/-- Fresh simulation state right after _setup_fuzzy_system. -/
def initialState : SimState := ⟨none, none, none⟩

/-- Python TrafficLightControl.compute_wait_time(incoming, waiting,
plot_output, filename_prefix): validate both inputs (incoming first), then
write the inputs into the simulation session, run the fuzzy computation,
optionally write the plot file Results/ plus prefix plus _wait_time.png,
and return the crisp output.  Result: the returned value or error, the
simulation state after the call, and the path of the plot file written, if
any. -/
def compute_wait_time (st : SimState) (incoming waiting : ℚ)
    (plot_output : Bool) ( filename_prefix : String) :
    Except String ℚ × SimState × Option String :=
  match validate_input_range incoming "Incoming Cars" with
  | .error e => (.error e, st, none)
  | .ok _ =>
    match validate_input_range waiting "Waiting Cars" with
    | .error e => (.error e, st, none)
    | .ok _ =>
      match defuzzCentroid (aggregatedCurve incoming waiting) with
      | .error e => (.error e, ⟨some waiting, some incoming, st.waitTimeOut⟩, none)
      | .ok v =>
        (.ok v, ⟨some waiting, some incoming, some v⟩,
         if plot_output then some ("Results/" ++ filename_prefix ++ "_wait_time.png")
         else none)

/-! ### Integer shadows of the three output membership curves

The bookkeeping below scales every output membership degree by
35150 = lcm(50, 25, 37, 38, 10), turning the three output triangles into
natural-number-valued tables on the integer sample points, so that sums
over the output universe can be computed by kernel reduction.  Each shadow
is tied to its rational counterpart by a proved bridge lemma. -/

/-- Integer shadow of shortMF on the sample points: 35150 times the
degree. -/
def shortN (i : ℕ) : ℕ :=
  if i ≤ 50 then i * 703 else if i ≤ 75 then (75 - i) * 1406 else 0

/-- Integer shadow of mediumMF on the sample points: 35150 times the
degree. -/
def mediumN (i : ℕ) : ℕ :=
  if i ≤ 50 then 0 else if i ≤ 87 then (i - 50) * 950
  else if i ≤ 125 then (125 - i) * 925 else 0

/-- Integer shadow of longMF on the sample points: 35150 times the
degree. -/
def longN (i : ℕ) : ℕ :=
  if i ≤ 100 then 0 else if i ≤ 150 then (i - 100) * 703
  else if i ≤ 160 then (160 - i) * 3515 else 0

/-- Sum f 0 + f 1 + ⋯ + f (n-1) over ℕ, by structural recursion, for
kernel evaluation of the shadow sums. -/
def sumRangeN (f : ℕ → ℕ) : ℕ → ℕ
  | 0 => 0
  | n + 1 => sumRangeN f n + f n

/-! ### Clip levels of the three output terms

For each output term, the maximum firing strength over the rules with that
consequent collapses (by the OR semantics) to a maximum of individual
input-term memberships; these three derived levels determine the whole
aggregated curve. -/

/-- Clip level of the short output term: the short rules reference waiting
terms 0, 1, 2 and incoming terms 0, 1. -/
def clipS (ic wa : ℚ) : ℚ :=
  max (autoTerm 0 wa) (max (autoTerm 1 wa) (max (autoTerm 2 wa)
    (max (autoTerm 0 ic) (autoTerm 1 ic))))

/-- Clip level of the medium output term: the medium rules reference all
five waiting terms and incoming terms 0, 1, 2, 3. -/
def clipM (ic wa : ℚ) : ℚ :=
  max (autoTerm 0 wa) (max (autoTerm 1 wa) (max (autoTerm 2 wa)
    (max (autoTerm 3 wa) (max (autoTerm 4 wa)
    (max (autoTerm 0 ic) (max (autoTerm 1 ic)
    (max (autoTerm 2 ic) (autoTerm 3 ic))))))))

/-- Clip level of the long output term: the long rules reference all five
waiting terms and incoming terms 1, 2, 3, 4. -/
def clipL (ic wa : ℚ) : ℚ :=
  max (autoTerm 0 wa) (max (autoTerm 1 wa) (max (autoTerm 2 wa)
    (max (autoTerm 3 wa) (max (autoTerm 4 wa)
    (max (autoTerm 1 ic) (max (autoTerm 2 ic)
    (max (autoTerm 3 ic) (autoTerm 4 ic))))))))

/-- Integer shadow of the aggregated curve when all three clip levels are
1 (all three output terms fully fired). -/
def aggAllN (i : ℕ) : ℕ := max (shortN i) (max (mediumN i) (longN i))

/-- Integer shadow of the aggregated curve when the short clip level is 0
and the other two are 1. -/
def aggMLN (i : ℕ) : ℕ := max (mediumN i) (longN i)

/-- Integer shadow of the aggregated curve when the short clip level is
1/2 (scaled: 17575) and the other two are 1. -/
def aggHalfN (i : ℕ) : ℕ := max (min 17575 (shortN i)) (max (mediumN i) (longN i))

/-- A rule covers a pair (waiting term, incoming term) under the OR
semantics when its antecedent fires with positive strength at the pair of
peak crisp inputs of those terms. -/
def coversAtPeaks (r : Rule) (p : Fin 5 × Fin 5) : Prop :=
  0 < firingStrength r (25 * (p.2.val : ℚ)) (25 * (p.1.val : ℚ))

/-! ### Elementary bounds -/

lemma trimf_nonneg (a b c x : ℚ) : 0 ≤ trimf a b c x := by
  unfold trimf
  split_ifs with h1 h2 h3
  · exact le_refl 0
  · exact div_nonneg (by linarith) (by linarith)
  · exact div_nonneg (by linarith) (by linarith)
  · exact le_refl 0

lemma trimf_le_one (a b c x : ℚ) : trimf a b c x ≤ 1 := by
  unfold trimf
  split_ifs with h1 h2 h3
  · norm_num
  · rw [div_le_one (by linarith : (0:ℚ) < b - a)]; linarith
  · rw [div_le_one (by linarith : (0:ℚ) < c - b)]; linarith
  · norm_num

lemma autoTerm_nonneg (k : Fin 5) (x : ℚ) : 0 ≤ autoTerm k x :=
  trimf_nonneg _ _ _ _

lemma autoTerm_le_one (k : Fin 5) (x : ℚ) : autoTerm k x ≤ 1 :=
  trimf_le_one _ _ _ _

lemma outMF_nonneg (o : OutTerm) (y : ℚ) : 0 ≤ outMF o y := by
  cases o <;> exact trimf_nonneg _ _ _ _

lemma outMF_le_one (o : OutTerm) (y : ℚ) : outMF o y ≤ 1 := by
  cases o <;> exact trimf_le_one _ _ _ _

lemma shortMF_nonneg (y : ℚ) : 0 ≤ shortMF y := trimf_nonneg _ _ _ _

lemma shortMF_le_one (y : ℚ) : shortMF y ≤ 1 := trimf_le_one _ _ _ _

lemma mediumMF_nonneg (y : ℚ) : 0 ≤ mediumMF y := trimf_nonneg _ _ _ _

lemma mediumMF_le_one (y : ℚ) : mediumMF y ≤ 1 := trimf_le_one _ _ _ _

lemma longMF_nonneg (y : ℚ) : 0 ≤ longMF y := trimf_nonneg _ _ _ _

lemma longMF_le_one (y : ℚ) : longMF y ≤ 1 := trimf_le_one _ _ _ _

/-! ### Folded maxima -/

lemma foldr_max_nonneg (l : List ℚ) : 0 ≤ l.foldr max 0 := by
  induction l with
  | nil => exact le_refl 0
  | cons a t ih => exact le_trans ih (le_max_right a _)

lemma le_foldr_max {a : ℚ} {l : List ℚ} (h : a ∈ l) : a ≤ l.foldr max 0 := by
  induction l with
  | nil => cases h
  | cons b t ih =>
    rcases List.mem_cons.mp h with rfl | h2
    · exact le_max_left _ _
    · exact le_trans (ih h2) (le_max_right _ _)

lemma foldr_max_le {l : List ℚ} {b : ℚ} (h0 : 0 ≤ b) (h : ∀ a ∈ l, a ≤ b) :
    l.foldr max 0 ≤ b := by
  induction l with
  | nil => exact h0
  | cons a t ih =>
    exact max_le (h a (List.mem_cons_self a t)) (ih fun x hx => h x (List.mem_cons_of_mem _ hx))

lemma aggregated_nonneg (ic wa y : ℚ) : 0 ≤ aggregated ic wa y :=
  foldr_max_nonneg _

lemma atom_le_aggregated {r : Rule} (hr : r ∈ rules) (ic wa y : ℚ) :
    min (firingStrength r ic wa) (outMF r.out y) ≤ aggregated ic wa y :=
  le_foldr_max (List.mem_map.mpr ⟨r, hr, rfl⟩)

lemma clipS_nonneg (ic wa : ℚ) : 0 ≤ clipS ic wa :=
  le_trans (autoTerm_nonneg 0 wa) (le_max_left _ _)

lemma clipM_nonneg (ic wa : ℚ) : 0 ≤ clipM ic wa :=
  le_trans (autoTerm_nonneg 0 wa) (le_max_left _ _)

lemma clipL_nonneg (ic wa : ℚ) : 0 ≤ clipL ic wa :=
  le_trans (autoTerm_nonneg 0 wa) (le_max_left _ _)

/-- The aggregated curve in clip form: at every output point it is the
three-way maximum of the output curves capped at their clip levels. -/
lemma agg_clip (ic wa y : ℚ) :
    aggregated ic wa y =
      max (min (clipS ic wa) (shortMF y))
        (max (min (clipM ic wa) (mediumMF y)) (min (clipL ic wa) (longMF y))) := by
  have bump : ∀ {a b : ℚ} (c : ℚ), a ≤ b → a ≤ max c b :=
    fun c h => le_trans h (le_max_right _ _)
  have caseh : ∀ {w i s m R : ℚ}, w ≤ s → i ≤ s → min s m ≤ R → min (max w i) m ≤ R :=
    fun hw hi hR => le_trans (min_le_min (max_le hw hi) le_rfl) hR
  have hw0S : autoTerm 0 wa ≤ clipS ic wa := le_max_left _ _
  have hw1S : autoTerm 1 wa ≤ clipS ic wa := bump _ (le_max_left _ _)
  have hw2S : autoTerm 2 wa ≤ clipS ic wa := bump _ (bump _ (le_max_left _ _))
  have hi0S : autoTerm 0 ic ≤ clipS ic wa := bump _ (bump _ (bump _ (le_max_left _ _)))
  have hi1S : autoTerm 1 ic ≤ clipS ic wa := bump _ (bump _ (bump _ (le_max_right _ _)))
  have hw0M : autoTerm 0 wa ≤ clipM ic wa := le_max_left _ _
  have hw1M : autoTerm 1 wa ≤ clipM ic wa := bump _ (le_max_left _ _)
  have hw2M : autoTerm 2 wa ≤ clipM ic wa := bump _ (bump _ (le_max_left _ _))
  have hw3M : autoTerm 3 wa ≤ clipM ic wa := bump _ (bump _ (bump _ (le_max_left _ _)))
  have hw4M : autoTerm 4 wa ≤ clipM ic wa :=
    bump _ (bump _ (bump _ (bump _ (le_max_left _ _))))
  have hi0M : autoTerm 0 ic ≤ clipM ic wa :=
    bump _ (bump _ (bump _ (bump _ (bump _ (le_max_left _ _)))))
  have hi1M : autoTerm 1 ic ≤ clipM ic wa :=
    bump _ (bump _ (bump _ (bump _ (bump _ (bump _ (le_max_left _ _))))))
  have hi2M : autoTerm 2 ic ≤ clipM ic wa :=
    bump _ (bump _ (bump _ (bump _ (bump _ (bump _ (bump _ (le_max_left _ _)))))))
  have hi3M : autoTerm 3 ic ≤ clipM ic wa :=
    bump _ (bump _ (bump _ (bump _ (bump _ (bump _ (bump _ (le_max_right _ _)))))))
  have hw0L : autoTerm 0 wa ≤ clipL ic wa := le_max_left _ _
  have hw1L : autoTerm 1 wa ≤ clipL ic wa := bump _ (le_max_left _ _)
  have hw2L : autoTerm 2 wa ≤ clipL ic wa := bump _ (bump _ (le_max_left _ _))
  have hw3L : autoTerm 3 wa ≤ clipL ic wa := bump _ (bump _ (bump _ (le_max_left _ _)))
  have hw4L : autoTerm 4 wa ≤ clipL ic wa :=
    bump _ (bump _ (bump _ (bump _ (le_max_left _ _))))
  have hi1L : autoTerm 1 ic ≤ clipL ic wa :=
    bump _ (bump _ (bump _ (bump _ (bump _ (le_max_left _ _)))))
  have hi2L : autoTerm 2 ic ≤ clipL ic wa :=
    bump _ (bump _ (bump _ (bump _ (bump _ (bump _ (le_max_left _ _))))))
  have hi3L : autoTerm 3 ic ≤ clipL ic wa :=
    bump _ (bump _ (bump _ (bump _ (bump _ (bump _ (bump _ (le_max_left _ _)))))))
  have hi4L : autoTerm 4 ic ≤ clipL ic wa :=
    bump _ (bump _ (bump _ (bump _ (bump _ (bump _ (bump _ (le_max_right _ _)))))))
  have hSr : min (clipS ic wa) (shortMF y) ≤
      max (min (clipS ic wa) (shortMF y))
        (max (min (clipM ic wa) (mediumMF y)) (min (clipL ic wa) (longMF y))) :=
    le_max_left _ _
  have hMr : min (clipM ic wa) (mediumMF y) ≤
      max (min (clipS ic wa) (shortMF y))
        (max (min (clipM ic wa) (mediumMF y)) (min (clipL ic wa) (longMF y))) :=
    le_trans (le_max_left _ _) (le_max_right _ _)
  have hLr : min (clipL ic wa) (longMF y) ≤
      max (min (clipS ic wa) (shortMF y))
        (max (min (clipM ic wa) (mediumMF y)) (min (clipL ic wa) (longMF y))) :=
    le_trans (le_max_right _ _) (le_max_right _ _)
  apply le_antisymm
  · unfold aggregated
    apply foldr_max_le
    · exact le_trans (le_min (clipS_nonneg ic wa) (trimf_nonneg _ _ _ _)) (le_max_left _ _)
    · intro a ha
      rw [List.mem_map] at ha
      obtain ⟨r, hr, rfl⟩ := ha
      simp only [rules, List.mem_cons, List.not_mem_nil, or_false] at hr
      rcases hr with rfl | rfl | rfl | rfl | rfl | rfl | rfl | rfl | rfl | rfl | rfl | rfl |
        rfl | rfl | rfl | rfl | rfl | rfl | rfl | rfl | rfl | rfl | rfl | rfl | rfl
      · exact caseh hw0S hi0S hSr
      · exact caseh hw0S hi1S hSr
      · exact caseh hw0M hi2M hMr
      · exact caseh hw0L hi3L hLr
      · exact caseh hw0L hi4L hLr
      · exact caseh hw1S hi0S hSr
      · exact caseh hw1S hi1S hSr
      · exact caseh hw1M hi2M hMr
      · exact caseh hw1M hi3M hMr
      · exact caseh hw1L hi4L hLr
      · exact caseh hw2S hi0S hSr
      · exact caseh hw2M hi1M hMr
      · exact caseh hw2M hi2M hMr
      · exact caseh hw2L hi3L hLr
      · exact caseh hw2L hi4L hLr
      · exact caseh hw3M hi0M hMr
      · exact caseh hw3M hi1M hMr
      · exact caseh hw3L hi2L hLr
      · exact caseh hw3L hi3L hLr
      · exact caseh hw3L hi4L hLr
      · exact caseh hw4M hi0M hMr
      · exact caseh hw4L hi1L hLr
      · exact caseh hw4L hi2L hLr
      · exact caseh hw4L hi3L hLr
      · exact caseh hw4L hi4L hLr
  · refine max_le ?_ (max_le ?_ ?_)
    · unfold clipS
      simp only [min_max_distrib_right]
      refine max_le ?_ (max_le ?_ (max_le ?_ (max_le ?_ ?_)))
      · exact le_trans (min_le_min (le_max_left _ _) le_rfl)
          (atom_le_aggregated (r := ⟨0, 0, .short⟩) (by decide) ic wa y)
      · exact le_trans (min_le_min (le_max_left _ _) le_rfl)
          (atom_le_aggregated (r := ⟨1, 0, .short⟩) (by decide) ic wa y)
      · exact le_trans (min_le_min (le_max_left _ _) le_rfl)
          (atom_le_aggregated (r := ⟨2, 0, .short⟩) (by decide) ic wa y)
      · exact le_trans (min_le_min (le_max_right _ _) le_rfl)
          (atom_le_aggregated (r := ⟨0, 0, .short⟩) (by decide) ic wa y)
      · exact le_trans (min_le_min (le_max_right _ _) le_rfl)
          (atom_le_aggregated (r := ⟨0, 1, .short⟩) (by decide) ic wa y)
    · unfold clipM
      simp only [min_max_distrib_right]
      refine max_le ?_ (max_le ?_ (max_le ?_ (max_le ?_ (max_le ?_ (max_le ?_
        (max_le ?_ (max_le ?_ ?_)))))))
      · exact le_trans (min_le_min (le_max_left _ _) le_rfl)
          (atom_le_aggregated (r := ⟨0, 2, .medium⟩) (by decide) ic wa y)
      · exact le_trans (min_le_min (le_max_left _ _) le_rfl)
          (atom_le_aggregated (r := ⟨1, 2, .medium⟩) (by decide) ic wa y)
      · exact le_trans (min_le_min (le_max_left _ _) le_rfl)
          (atom_le_aggregated (r := ⟨2, 1, .medium⟩) (by decide) ic wa y)
      · exact le_trans (min_le_min (le_max_left _ _) le_rfl)
          (atom_le_aggregated (r := ⟨3, 0, .medium⟩) (by decide) ic wa y)
      · exact le_trans (min_le_min (le_max_left _ _) le_rfl)
          (atom_le_aggregated (r := ⟨4, 0, .medium⟩) (by decide) ic wa y)
      · exact le_trans (min_le_min (le_max_right _ _) le_rfl)
          (atom_le_aggregated (r := ⟨3, 0, .medium⟩) (by decide) ic wa y)
      · exact le_trans (min_le_min (le_max_right _ _) le_rfl)
          (atom_le_aggregated (r := ⟨2, 1, .medium⟩) (by decide) ic wa y)
      · exact le_trans (min_le_min (le_max_right _ _) le_rfl)
          (atom_le_aggregated (r := ⟨0, 2, .medium⟩) (by decide) ic wa y)
      · exact le_trans (min_le_min (le_max_right _ _) le_rfl)
          (atom_le_aggregated (r := ⟨1, 3, .medium⟩) (by decide) ic wa y)
    · unfold clipL
      simp only [min_max_distrib_right]
      refine max_le ?_ (max_le ?_ (max_le ?_ (max_le ?_ (max_le ?_ (max_le ?_
        (max_le ?_ (max_le ?_ ?_)))))))
      · exact le_trans (min_le_min (le_max_left _ _) le_rfl)
          (atom_le_aggregated (r := ⟨0, 3, .long⟩) (by decide) ic wa y)
      · exact le_trans (min_le_min (le_max_left _ _) le_rfl)
          (atom_le_aggregated (r := ⟨1, 4, .long⟩) (by decide) ic wa y)
      · exact le_trans (min_le_min (le_max_left _ _) le_rfl)
          (atom_le_aggregated (r := ⟨2, 3, .long⟩) (by decide) ic wa y)
      · exact le_trans (min_le_min (le_max_left _ _) le_rfl)
          (atom_le_aggregated (r := ⟨3, 2, .long⟩) (by decide) ic wa y)
      · exact le_trans (min_le_min (le_max_left _ _) le_rfl)
          (atom_le_aggregated (r := ⟨4, 1, .long⟩) (by decide) ic wa y)
      · exact le_trans (min_le_min (le_max_right _ _) le_rfl)
          (atom_le_aggregated (r := ⟨4, 1, .long⟩) (by decide) ic wa y)
      · exact le_trans (min_le_min (le_max_right _ _) le_rfl)
          (atom_le_aggregated (r := ⟨3, 2, .long⟩) (by decide) ic wa y)
      · exact le_trans (min_le_min (le_max_right _ _) le_rfl)
          (atom_le_aggregated (r := ⟨0, 3, .long⟩) (by decide) ic wa y)
      · exact le_trans (min_le_min (le_max_right _ _) le_rfl)
          (atom_le_aggregated (r := ⟨0, 4, .long⟩) (by decide) ic wa y)

/-! ### Bridges between the rational curves and their integer shadows -/

lemma short_bridge (i : ℕ) : shortMF (i : ℚ) = (shortN i : ℚ) / 35150 := by
  unfold shortMF shortN trimf
  rcases Nat.lt_or_ge i 1 with h0 | h0
  · have : i = 0 := by omega
    subst this
    norm_num
  · have h0q : ¬((i : ℚ) ≤ 0) := by
      push_neg
      exact_mod_cast h0
    rcases le_or_lt i 50 with h1 | h1
    · have h1q : (i : ℚ) ≤ 50 := by exact_mod_cast h1
      rw [if_neg h0q, if_pos h1q, if_pos h1]
      push_cast
      field_simp
      ring
    · rcases le_or_lt i 75 with h2 | h2
      · have h1q : ¬((i : ℚ) ≤ 50) := by
          push_neg
          exact_mod_cast h1
        have h2q : (i : ℚ) ≤ 75 := by exact_mod_cast h2
        rw [if_neg h0q, if_neg h1q, if_pos h2q, if_neg (by omega : ¬(i ≤ 50)), if_pos h2]
        rw [Nat.cast_mul, Nat.cast_sub h2]
        push_cast
        field_simp
        ring
      · have h1q : ¬((i : ℚ) ≤ 50) := by
          push_neg
          exact_mod_cast h1
        have h2q : ¬((i : ℚ) ≤ 75) := by
          push_neg
          exact_mod_cast h2
        rw [if_neg h0q, if_neg h1q, if_neg h2q, if_neg (by omega : ¬(i ≤ 50)),
          if_neg (by omega : ¬(i ≤ 75))]
        norm_num

lemma medium_bridge (i : ℕ) : mediumMF (i : ℚ) = (mediumN i : ℚ) / 35150 := by
  unfold mediumMF mediumN trimf
  rcases le_or_lt i 50 with h1 | h1
  · have h1q : (i : ℚ) ≤ 50 := by exact_mod_cast h1
    rw [if_pos h1q, if_pos h1]
    norm_num
  · have h1q : ¬((i : ℚ) ≤ 50) := by
      push_neg
      exact_mod_cast h1
    rcases le_or_lt i 87 with h2 | h2
    · have h2q : (i : ℚ) ≤ 87 := by exact_mod_cast h2
      rw [if_neg h1q, if_pos h2q, if_neg (by omega : ¬(i ≤ 50)), if_pos h2]
      rw [Nat.cast_mul, Nat.cast_sub (by omega : 50 ≤ i)]
      push_cast
      field_simp
      ring
    · have h2q : ¬((i : ℚ) ≤ 87) := by
        push_neg
        exact_mod_cast h2
      rcases le_or_lt i 125 with h3 | h3
      · have h3q : (i : ℚ) ≤ 125 := by exact_mod_cast h3
        rw [if_neg h1q, if_neg h2q, if_pos h3q, if_neg (by omega : ¬(i ≤ 50)),
          if_neg (by omega : ¬(i ≤ 87)), if_pos h3]
        rw [Nat.cast_mul, Nat.cast_sub h3]
        push_cast
        field_simp
        ring
      · have h3q : ¬((i : ℚ) ≤ 125) := by
          push_neg
          exact_mod_cast h3
        rw [if_neg h1q, if_neg h2q, if_neg h3q, if_neg (by omega : ¬(i ≤ 50)),
          if_neg (by omega : ¬(i ≤ 87)), if_neg (by omega : ¬(i ≤ 125))]
        norm_num

lemma long_bridge (i : ℕ) : longMF (i : ℚ) = (longN i : ℚ) / 35150 := by
  unfold longMF longN trimf
  rcases le_or_lt i 100 with h1 | h1
  · have h1q : (i : ℚ) ≤ 100 := by exact_mod_cast h1
    rw [if_pos h1q, if_pos h1]
    norm_num
  · have h1q : ¬((i : ℚ) ≤ 100) := by
      push_neg
      exact_mod_cast h1
    rcases le_or_lt i 150 with h2 | h2
    · have h2q : (i : ℚ) ≤ 150 := by exact_mod_cast h2
      rw [if_neg h1q, if_pos h2q, if_neg (by omega : ¬(i ≤ 100)), if_pos h2]
      rw [Nat.cast_mul, Nat.cast_sub (by omega : 100 ≤ i)]
      push_cast
      field_simp
      ring
    · have h2q : ¬((i : ℚ) ≤ 150) := by
        push_neg
        exact_mod_cast h2
      rcases le_or_lt i 160 with h3 | h3
      · have h3q : (i : ℚ) ≤ 160 := by exact_mod_cast h3
        rw [if_neg h1q, if_neg h2q, if_pos h3q, if_neg (by omega : ¬(i ≤ 100)),
          if_neg (by omega : ¬(i ≤ 150)), if_pos h3]
        rw [Nat.cast_mul, Nat.cast_sub h3]
        push_cast
        field_simp
        ring
      · have h3q : ¬((i : ℚ) ≤ 160) := by
          push_neg
          exact_mod_cast h3
        rw [if_neg h1q, if_neg h2q, if_neg h3q, if_neg (by omega : ¬(i ≤ 100)),
          if_neg (by omega : ¬(i ≤ 150)), if_neg (by omega : ¬(i ≤ 160))]
        norm_num

lemma aggAll_bridge (i : ℕ) :
    max (shortMF i) (max (mediumMF i) (longMF i)) = (aggAllN i : ℚ) / 35150 := by
  have hD : (0 : ℚ) ≤ 35150 := by norm_num
  rw [short_bridge, medium_bridge, long_bridge]
  simp only [max_div_div_right hD]
  unfold aggAllN
  push_cast
  rfl

lemma aggML_bridge (i : ℕ) :
    max (mediumMF i) (longMF i) = (aggMLN i : ℚ) / 35150 := by
  have hD : (0 : ℚ) ≤ 35150 := by norm_num
  rw [medium_bridge, long_bridge]
  simp only [max_div_div_right hD]
  unfold aggMLN
  push_cast
  rfl

lemma aggHalf_bridge (i : ℕ) :
    max (min (1/2) (shortMF i)) (max (mediumMF i) (longMF i)) = (aggHalfN i : ℚ) / 35150 := by
  have hD : (0 : ℚ) ≤ 35150 := by norm_num
  rw [short_bridge, medium_bridge, long_bridge,
    show (1 : ℚ)/2 = 17575/35150 by norm_num]
  simp only [max_div_div_right hD, min_div_div_right hD]
  unfold aggHalfN
  push_cast
  rfl

lemma sumRangeN_eq (g : ℕ → ℕ) (n : ℕ) :
    ((sumRangeN g n : ℕ) : ℚ) = ∑ i in Finset.range n, (g i : ℚ) := by
  induction n with
  | zero => simp [sumRangeN]
  | succ n ih =>
    rw [sumRangeN, Finset.sum_range_succ, ← ih]
    push_cast
    ring

lemma den_shadow (μ : ℕ → ℚ) (g : ℕ → ℕ) (h : ∀ i, μ i = (g i : ℚ) / 35150) :
    curveDen μ = ((sumRangeN g 161 : ℕ) : ℚ) / 35150 := by
  unfold curveDen
  rw [sumRangeN_eq, Finset.sum_div]
  exact Finset.sum_congr rfl (fun i _ => h i)

lemma num_shadow (μ : ℕ → ℚ) (g : ℕ → ℕ) (h : ∀ i, μ i = (g i : ℚ) / 35150) :
    curveNum μ = ((sumRangeN (fun i => i * g i) 161 : ℕ) : ℚ) / 35150 := by
  unfold curveNum
  rw [sumRangeN_eq]
  push_cast
  rw [Finset.sum_div]
  refine Finset.sum_congr rfl (fun i _ => ?_)
  rw [h i]
  ring

set_option maxRecDepth 10000

lemma sum_aggAllN_den : sumRangeN aggAllN 161 = 3388980 := by decide

lemma sum_aggAllN_num : sumRangeN (fun i => i * aggAllN i) 161 = 288844640 := by decide

lemma sum_aggMLN_den : sumRangeN aggMLN 161 = 2247935 := by decide

lemma sum_aggMLN_num : sumRangeN (fun i => i * aggMLN i) 161 = 245132955 := by decide

lemma sum_aggHalfN_den : sumRangeN aggHalfN 161 = 3059273 := by decide

lemma sum_aggHalfN_num : sumRangeN (fun i => i * aggHalfN i) 161 = 273730140 := by decide

/-- When all three clip levels are 1 the crisp output is the centroid of
the max of the three full output triangles: 2063176/24207 ≈ 85.23 s. -/
lemma crisp_clips_all (ic wa : ℚ) (hS : clipS ic wa = 1) (hM : clipM ic wa = 1)
    (hL : clipL ic wa = 1) : crispWaitTime ic wa = 2063176/24207 := by
  have hcurve : ∀ i : ℕ, aggregatedCurve ic wa i = (aggAllN i : ℚ) / 35150 := by
    intro i
    unfold aggregatedCurve
    rw [agg_clip, hS, hM, hL,
      min_eq_right (shortMF_le_one (i : ℚ)),
      min_eq_right (mediumMF_le_one (i : ℚ)),
      min_eq_right (longMF_le_one (i : ℚ))]
    exact aggAll_bridge i
  unfold crispWaitTime
  rw [den_shadow _ _ hcurve, num_shadow _ _ hcurve, sum_aggAllN_den, sum_aggAllN_num]
  norm_num

/-- When the short clip level is 0 and the other two are 1 the crisp
output is the centroid of the max of the medium and long triangles:
1325043/12151 ≈ 109.05 s. -/
lemma crisp_clips_ml (ic wa : ℚ) (hS : clipS ic wa = 0) (hM : clipM ic wa = 1)
    (hL : clipL ic wa = 1) : crispWaitTime ic wa = 1325043/12151 := by
  have hcurve : ∀ i : ℕ, aggregatedCurve ic wa i = (aggMLN i : ℚ) / 35150 := by
    intro i
    unfold aggregatedCurve
    rw [agg_clip, hS, hM, hL,
      min_eq_left (shortMF_nonneg (i : ℚ)),
      min_eq_right (mediumMF_le_one (i : ℚ)),
      min_eq_right (longMF_le_one (i : ℚ)),
      max_eq_right (le_trans (mediumMF_nonneg (i : ℚ)) (le_max_left _ _))]
    exact aggML_bridge i
  unfold crispWaitTime
  rw [den_shadow _ _ hcurve, num_shadow _ _ hcurve, sum_aggMLN_den, sum_aggMLN_num]
  norm_num

/-- When the short clip level is 1/2 and the other two are 1 the crisp
output is 273730140/3059273 ≈ 89.48 s. -/
lemma crisp_clips_half (ic wa : ℚ) (hS : clipS ic wa = 1/2) (hM : clipM ic wa = 1)
    (hL : clipL ic wa = 1) : crispWaitTime ic wa = 273730140/3059273 := by
  have hcurve : ∀ i : ℕ, aggregatedCurve ic wa i = (aggHalfN i : ℚ) / 35150 := by
    intro i
    unfold aggregatedCurve
    rw [agg_clip, hS, hM, hL,
      min_eq_right (mediumMF_le_one (i : ℚ)),
      min_eq_right (longMF_le_one (i : ℚ))]
    exact aggHalf_bridge i
  unfold crispWaitTime
  rw [den_shadow _ _ hcurve, num_shadow _ _ hcurve, sum_aggHalfN_den, sum_aggHalfN_num]
  norm_num

/-! ### Coverage of the input universe and positivity of the denominator -/

lemma autoTerm_half (k : Fin 5) (x : ℚ) (h1 : 25 * (k.val : ℚ) - 25/2 ≤ x)
    (h2 : x ≤ 25 * (k.val : ℚ) + 25/2) : 1/2 ≤ autoTerm k x := by
  unfold autoTerm trimf
  split_ifs with hA hB hC
  · exfalso; linarith
  · rw [le_div_iff₀ (by linarith)]
    linarith
  · rw [le_div_iff₀ (by linarith)]
    linarith
  · exfalso
    apply hC
    linarith

/-- Every point of the input universe is within half a step of some term
peak, so some term has degree at least 1/2 there. -/
lemma coverage_half (x : ℚ) (hx0 : 0 ≤ x) (hx100 : x ≤ 100) :
    ∃ k : Fin 5, 1/2 ≤ autoTerm k x := by
  rcases le_or_lt x (25/2) with h | h
  · exact ⟨⟨0, by norm_num⟩, autoTerm_half _ x (by push_cast; linarith) (by push_cast; linarith)⟩
  rcases le_or_lt x (75/2) with h2 | h2
  · exact ⟨⟨1, by norm_num⟩, autoTerm_half _ x (by push_cast; linarith) (by push_cast; linarith)⟩
  rcases le_or_lt x (125/2) with h3 | h3
  · exact ⟨⟨2, by norm_num⟩, autoTerm_half _ x (by push_cast; linarith) (by push_cast; linarith)⟩
  rcases le_or_lt x (175/2) with h4 | h4
  · exact ⟨⟨3, by norm_num⟩, autoTerm_half _ x (by push_cast; linarith) (by push_cast; linarith)⟩
  · exact ⟨⟨4, by norm_num⟩, autoTerm_half _ x (by push_cast; linarith) (by push_cast; linarith)⟩

lemma autoTerm_le_clipM (k : Fin 5) (ic wa : ℚ) : autoTerm k wa ≤ clipM ic wa := by
  have bump : ∀ {a b : ℚ} (c : ℚ), a ≤ b → a ≤ max c b :=
    fun c h => le_trans h (le_max_right _ _)
  fin_cases k
  · exact le_max_left _ _
  · exact bump _ (le_max_left _ _)
  · exact bump _ (bump _ (le_max_left _ _))
  · exact bump _ (bump _ (bump _ (le_max_left _ _)))
  · exact bump _ (bump _ (bump _ (bump _ (le_max_left _ _))))

/-- For every pair of crisp inputs with the waiting count in range, the
aggregated curve is at least 1/2 at the medium peak 87: some waiting term
has degree at least 1/2, every waiting term feeds the medium clip level,
and the medium curve peaks at 87. -/
lemma agg87 (ic wa : ℚ) (h1 : 0 ≤ wa) (h2 : wa ≤ 100) :
    1/2 ≤ aggregatedCurve ic wa 87 := by
  obtain ⟨k, hk⟩ := coverage_half wa h1 h2
  have hM : (1:ℚ)/2 ≤ clipM ic wa := le_trans hk (autoTerm_le_clipM k ic wa)
  unfold aggregatedCurve
  rw [agg_clip]
  have hmed : mediumMF ((87 : ℕ) : ℚ) = 1 := by norm_num [mediumMF, trimf]
  have hmin : (1:ℚ)/2 ≤ min (clipM ic wa) (mediumMF ((87 : ℕ) : ℚ)) :=
    le_min hM (by rw [hmed]; norm_num)
  exact le_trans hmin (le_trans (le_max_left _ _) (le_max_right _ _))

/-- The centroid denominator is positive for in-range inputs. -/
lemma den_pos (ic wa : ℚ) (h1 : 0 ≤ wa) (h2 : wa ≤ 100) :
    0 < curveDen (aggregatedCurve ic wa) := by
  have h87 := agg87 ic wa h1 h2
  have hnn : ∀ i ∈ Finset.range 161, 0 ≤ aggregatedCurve ic wa i :=
    fun i _ => aggregated_nonneg ic wa _
  have hsum : aggregatedCurve ic wa 87 ≤ curveDen (aggregatedCurve ic wa) :=
    Finset.single_le_sum hnn (by norm_num [Finset.mem_range])
  linarith

/-- For in-range inputs the evaluation call returns the crisp centroid
value. -/
lemma compute_val (st : SimState) (ic wa : ℚ) (p : Bool) (fp : String)
    (h1 : 0 ≤ ic) (h2 : ic ≤ 100) (h3 : 0 ≤ wa) (h4 : wa ≤ 100) :
    (compute_wait_time st ic wa p fp).1 = Except.ok (crispWaitTime ic wa) := by
  unfold compute_wait_time validate_input_range defuzzCentroid
  rw [if_pos ⟨h1, h2⟩, if_pos ⟨h3, h4⟩, if_neg (ne_of_gt (den_pos ic wa h3 h4))]
  rfl

/-! ### Clip levels at the 25 pairs of term-peak inputs -/

lemma finVal0 : (((0 : Fin 5)).val : ℚ) = 0 := rfl

lemma finVal1 : (((1 : Fin 5)).val : ℚ) = 1 := rfl

lemma finVal2 : (((2 : Fin 5)).val : ℚ) = 2 := rfl

lemma finVal3 : (((3 : Fin 5)).val : ℚ) = 3 := rfl

lemma finVal4 : (((4 : Fin 5)).val : ℚ) = 4 := rfl

lemma clipM_peak (a b : ℕ) (ha : a ≤ 4) (hb : b ≤ 4) :
    clipM (25 * (a : ℚ)) (25 * (b : ℚ)) = 1 := by
  interval_cases a <;> interval_cases b <;>
    norm_num [clipM, autoTerm, trimf, max_def, finVal0, finVal1, finVal2, finVal3, finVal4]

lemma clipL_peak (a b : ℕ) (ha : a ≤ 4) (hb : b ≤ 4) :
    clipL (25 * (a : ℚ)) (25 * (b : ℚ)) = 1 := by
  interval_cases a <;> interval_cases b <;>
    norm_num [clipL, autoTerm, trimf, max_def, finVal0, finVal1, finVal2, finVal3, finVal4]

lemma clipS_peak_low (a b : ℕ) (ha : a ≤ 4) (hb : b ≤ 4) (h : b ≤ 2 ∨ a ≤ 1) :
    clipS (25 * (a : ℚ)) (25 * (b : ℚ)) = 1 := by
  interval_cases a <;> interval_cases b <;>
    first
    | omega
    | norm_num [clipS, autoTerm, trimf, max_def, finVal0, finVal1, finVal2, finVal3, finVal4]

lemma clipS_peak_high (a b : ℕ) (ha : 2 ≤ a) (ha4 : a ≤ 4) (hb : 3 ≤ b) (hb4 : b ≤ 4) :
    clipS (25 * (a : ℚ)) (25 * (b : ℚ)) = 0 := by
  interval_cases a <;> interval_cases b <;>
    norm_num [clipS, autoTerm, trimf, max_def, finVal0, finVal1, finVal2, finVal3, finVal4]

/-- The crisp wait time at the 25 pairs of term-peak inputs takes exactly
two values, the high one on the upper-right block. -/
lemma gridVal (a b : ℕ) (ha : a ≤ 4) (hb : b ≤ 4) :
    crispWaitTime (25 * (a : ℚ)) (25 * (b : ℚ)) =
      if 2 ≤ a ∧ 3 ≤ b then 1325043/12151 else 2063176/24207 := by
  by_cases h : 2 ≤ a ∧ 3 ≤ b
  · rw [if_pos h]
    exact crisp_clips_ml _ _ (clipS_peak_high a b h.1 ha h.2 hb)
      (clipM_peak a b ha hb) (clipL_peak a b ha hb)
  · rw [if_neg h]
    have h2 : b ≤ 2 ∨ a ≤ 1 := by omega
    exact crisp_clips_all _ _ (clipS_peak_low a b ha hb h2)
      (clipM_peak a b ha hb) (clipL_peak a b ha hb)

/-! ### Claim theorems -/

/-- C1, counterexample: the end-to-end wait time is not monotone.  At
waiting 75, raising incoming from 12.5 to 25 lowers the computed wait time
from 273730140/3059273 (≈ 89.48) to 2063176/24207 (≈ 85.23): the short
rules of the base fire at strength 1 again once incoming reaches the light
peak, adding low-output mass to the aggregate. -/
theorem c1_counterexample :
    ((0:ℚ) ≤ 25/2) ∧ ((25:ℚ)/2 ≤ 100) ∧ ((0:ℚ) ≤ 25) ∧ ((25:ℚ) ≤ 100) ∧
    ((0:ℚ) ≤ 75) ∧ ((75:ℚ) ≤ 100) ∧ ((25:ℚ)/2 ≤ 25) ∧
    (compute_wait_time initialState (25/2) 75 false "output").1 =
      Except.ok (273730140/3059273) ∧
    (compute_wait_time initialState 25 75 false "output").1 =
      Except.ok (2063176/24207) ∧
    ((2063176:ℚ)/24207 < 273730140/3059273) := by
  have hSh : clipS (25/2) 75 = 1/2 := by
    norm_num [clipS, autoTerm, trimf, max_def, finVal0, finVal1, finVal2]
  have hMh : clipM (25/2) 75 = 1 := by
    norm_num [clipM, autoTerm, trimf, max_def, finVal0, finVal1, finVal2, finVal3, finVal4]
  have hLh : clipL (25/2) 75 = 1 := by
    norm_num [clipL, autoTerm, trimf, max_def, finVal0, finVal1, finVal2, finVal3, finVal4]
  have hSa : clipS 25 75 = 1 := by
    norm_num [clipS, autoTerm, trimf, max_def, finVal0, finVal1, finVal2]
  have hMa : clipM 25 75 = 1 := by
    norm_num [clipM, autoTerm, trimf, max_def, finVal0, finVal1, finVal2, finVal3, finVal4]
  have hLa : clipL 25 75 = 1 := by
    norm_num [clipL, autoTerm, trimf, max_def, finVal0, finVal1, finVal2, finVal3, finVal4]
  refine ⟨by norm_num, by norm_num, by norm_num, by norm_num, by norm_num, by norm_num,
    by norm_num, ?_, ?_, by norm_num⟩
  · rw [compute_val _ _ _ _ _ (by norm_num) (by norm_num) (by norm_num) (by norm_num),
      crisp_clips_half (25/2) 75 hSh hMh hLh]
  · rw [compute_val _ _ _ _ _ (by norm_num) (by norm_num) (by norm_num) (by norm_num),
      crisp_clips_all 25 75 hSa hMa hLa]

/-- C1, amended: restricted to inputs at the five term peaks 0, 25, 50,
75, 100 of each input variable, the computed wait time is monotone:
raising either peak input (weakly) never lowers the returned value. -/
theorem c1_theorem (a b c d : ℕ) (ha : a ≤ 4) (hb : b ≤ 4) (hc : c ≤ 4) (hd : d ≤ 4)
    (hac : a ≤ c) (hbd : b ≤ d) (v w : ℚ)
    (hv : (compute_wait_time initialState (25 * (a:ℚ)) (25 * (b:ℚ)) false "output").1 =
      Except.ok v)
    (hw : (compute_wait_time initialState (25 * (c:ℚ)) (25 * (d:ℚ)) false "output").1 =
      Except.ok w) :
    v ≤ w := by
  have bound : ∀ n : ℕ, n ≤ 4 → 25 * (n:ℚ) ≤ 100 := by
    intro n hn
    have : (n:ℚ) ≤ 4 := by exact_mod_cast hn
    linarith
  have hva := compute_val initialState (25 * (a:ℚ)) (25 * (b:ℚ)) false "output"
    (by positivity) (bound a ha) (by positivity) (bound b hb)
  have hwc := compute_val initialState (25 * (c:ℚ)) (25 * (d:ℚ)) false "output"
    (by positivity) (bound c hc) (by positivity) (bound d hd)
  have hv2 : v = crispWaitTime (25 * (a:ℚ)) (25 * (b:ℚ)) :=
    (Except.ok.inj (hva.symm.trans hv)).symm
  have hw2 : w = crispWaitTime (25 * (c:ℚ)) (25 * (d:ℚ)) :=
    (Except.ok.inj (hwc.symm.trans hw)).symm
  rw [hv2, hw2, gridVal a b ha hb, gridVal c d hc hd]
  by_cases h1 : 2 ≤ a ∧ 3 ≤ b
  · rw [if_pos h1, if_pos (by omega : 2 ≤ c ∧ 3 ≤ d)]
  · rw [if_neg h1]
    by_cases h2 : 2 ≤ c ∧ 3 ≤ d
    · rw [if_pos h2]
      norm_num
    · rw [if_neg h2]

theorem c1_witness : (2063176:ℚ)/24207 ≤ 2063176/24207 := by
  have h00 : (compute_wait_time initialState (25 * ((0:ℕ):ℚ)) (25 * ((0:ℕ):ℚ))
      false "output").1 = Except.ok (2063176/24207) := by
    rw [compute_val _ _ _ _ _ (by norm_num) (by norm_num) (by norm_num) (by norm_num)]
    have hg := gridVal 0 0 (by norm_num) (by norm_num)
    rw [if_neg (by omega : ¬(2 ≤ 0 ∧ 3 ≤ 0))] at hg
    rw [hg]
  exact c1_theorem 0 0 0 0 (by norm_num) (by norm_num) (by norm_num) (by norm_num)
    (le_refl 0) (le_refl 0) _ _ h00 h00

/-- C2, counterexample: under the OR semantics actually used, the pair
(waiting minimal, incoming minimal) is covered by (at least) two distinct
rules, and those two rules have conflicting consequents (short versus
medium), so the pair is not covered by exactly one rule and the
no-conflict property fails. -/
theorem c2_counterexample :
    (⟨0, 0, .short⟩ : Rule) ∈ rules ∧ (⟨0, 2, .medium⟩ : Rule) ∈ rules ∧
    (⟨0, 0, .short⟩ : Rule) ≠ (⟨0, 2, .medium⟩ : Rule) ∧
    coversAtPeaks ⟨0, 0, .short⟩ (0, 0) ∧ coversAtPeaks ⟨0, 2, .medium⟩ (0, 0) ∧
    (⟨0, 0, .short⟩ : Rule).out ≠ (⟨0, 2, .medium⟩ : Rule).out := by
  refine ⟨by decide, by decide, by decide, ?_, ?_, by decide⟩ <;>
    norm_num [coversAtPeaks, firingStrength, autoTerm, trimf, max_def, finVal0, finVal2]

/-- C2, amended: every pair of the 25 term combinations appears as the
literal antecedent pair of exactly one rule of the base — the rule list
enumerates the 5 × 5 combinations bijectively, so no two distinct rules
share an antecedent pair (and a fortiori none assign conflicting outputs
to a shared antecedent pair). -/
theorem c2_theorem : ∀ p : Fin 5 × Fin 5,
    (rules.filter (fun r => r.waitingTerm == p.1 && r.incomingTerm == p.2)).length = 1 := by
  decide

/-- C3, counterexample: at incoming 0 and waiting 0 the engine returns
2063176/24207 ≈ 85.23 seconds, which does not lie in the claimed interval
from 25 to 40: with OR antecedents, the waiting-minimal rules alone fire
short, medium and long at full strength, so the aggregate is the maximum
of all three output triangles rather than the short triangle. -/
theorem c3_counterexample :
    (compute_wait_time initialState 0 0 false "output").1 =
      Except.ok (2063176/24207) ∧
    ¬((25:ℚ) ≤ 2063176/24207 ∧ (2063176:ℚ)/24207 ≤ 40) := by
  constructor
  · have hS : clipS 0 0 = 1 := by
      norm_num [clipS, autoTerm, trimf, max_def, finVal0, finVal1, finVal2]
    have hM : clipM 0 0 = 1 := by
      norm_num [clipM, autoTerm, trimf, max_def, finVal0, finVal1, finVal2, finVal3, finVal4]
    have hL : clipL 0 0 = 1 := by
      norm_num [clipL, autoTerm, trimf, max_def, finVal0, finVal1, finVal2, finVal3, finVal4]
    rw [compute_val _ _ _ _ _ le_rfl (by norm_num) le_rfl (by norm_num),
      crisp_clips_all 0 0 hS hM hL]
  · norm_num

/-- C3, amended: at incoming 0 and waiting 0 the engine returns the crisp
wait time 2063176/24207 ≈ 85.23 seconds, near the middle of the output
universe (between 80 and 90 seconds). -/
theorem c3_theorem :
    (compute_wait_time initialState 0 0 false "output").1 =
      Except.ok (2063176/24207) ∧
    (80:ℚ) ≤ 2063176/24207 ∧ (2063176:ℚ)/24207 ≤ 90 := by
  refine ⟨?_, by norm_num, by norm_num⟩
  have hS : clipS 0 0 = 1 := by
    norm_num [clipS, autoTerm, trimf, max_def, finVal0, finVal1, finVal2]
  have hM : clipM 0 0 = 1 := by
    norm_num [clipM, autoTerm, trimf, max_def, finVal0, finVal1, finVal2, finVal3, finVal4]
  have hL : clipL 0 0 = 1 := by
    norm_num [clipL, autoTerm, trimf, max_def, finVal0, finVal1, finVal2, finVal3, finVal4]
  rw [compute_val _ _ _ _ _ le_rfl (by norm_num) le_rfl (by norm_num),
    crisp_clips_all 0 0 hS hM hL]

/-- C4: for every rule of the base and all crisp inputs, the firing
strength is the OR combination — the maximum — of the membership degrees
of the two antecedent references, and it lies between 0 and 1. -/
theorem c4_theorem (r : Rule) (_hr : r ∈ rules) (incoming waiting : ℚ) :
    firingStrength r incoming waiting =
      max (autoTerm r.waitingTerm waiting) (autoTerm r.incomingTerm incoming) ∧
    0 ≤ firingStrength r incoming waiting ∧ firingStrength r incoming waiting ≤ 1 :=
  ⟨rfl, le_trans (autoTerm_nonneg _ _) (le_max_left _ _),
    max_le (autoTerm_le_one _ _) (autoTerm_le_one _ _)⟩

theorem c4_witness :
    firingStrength ⟨0, 0, .short⟩ 0 0 = max (autoTerm 0 0) (autoTerm 0 0) ∧
    0 ≤ firingStrength ⟨0, 0, .short⟩ 0 0 ∧ firingStrength ⟨0, 0, .short⟩ 0 0 ≤ 1 :=
  c4_theorem ⟨0, 0, .short⟩ (by decide) 0 0

/-- C5: for in-range inputs the returned crisp wait time is exactly
Σ(x_i·degree_i)/Σ(degree_i) over the 161 sample points of the output
universe, where degree_i is the pointwise maximum over the rules of the
output term curve clipped at the firing strength of the rule. -/
theorem c5_theorem (st : SimState) (incoming waiting : ℚ) (p : Bool) (fp : String)
    (h1 : 0 ≤ incoming) (h2 : incoming ≤ 100) (h3 : 0 ≤ waiting) (h4 : waiting ≤ 100) :
    (compute_wait_time st incoming waiting p fp).1 =
      Except.ok ((∑ i in Finset.range 161, (i:ℚ) * aggregated incoming waiting i) /
        (∑ i in Finset.range 161, aggregated incoming waiting i)) :=
  compute_val st incoming waiting p fp h1 h2 h3 h4

theorem c5_witness :
    (compute_wait_time initialState 0 0 false "output").1 =
      Except.ok ((∑ i in Finset.range 161, (i:ℚ) * aggregated 0 0 i) /
        (∑ i in Finset.range 161, aggregated 0 0 i)) :=
  c5_theorem initialState 0 0 false "output" le_rfl (by norm_num) le_rfl (by norm_num)

/-- C6: for the automatically generated five-term input sets, both
adjacent terms have degree exactly 1/2 at the crossover point halfway
between consecutive peaks, and every point of the input universe gives
positive degree to at least one term. -/
theorem c6_theorem :
    (∀ k : Fin 5, ∀ hk : k.val + 1 < 5,
      autoTerm k (25 * (k.val : ℚ) + 25/2) = 1/2 ∧
      autoTerm ⟨k.val + 1, hk⟩ (25 * (k.val : ℚ) + 25/2) = 1/2) ∧
    (∀ x : ℚ, 0 ≤ x → x ≤ 100 → ∃ t : Fin 5, 0 < autoTerm t x) := by
  constructor
  · intro k hk
    fin_cases k <;> constructor <;>
      norm_num [autoTerm, trimf, finVal0, finVal1, finVal2, finVal3, finVal4]
  · intro x hx0 hx100
    obtain ⟨t, ht⟩ := coverage_half x hx0 hx100
    exact ⟨t, lt_of_lt_of_le (by norm_num) ht⟩

theorem c6_witness :
    (autoTerm 0 (25 * ((0 : Fin 5).val : ℚ) + 25/2) = 1/2 ∧
      autoTerm ⟨(0 : Fin 5).val + 1, by norm_num⟩ (25 * ((0 : Fin 5).val : ℚ) + 25/2) = 1/2) ∧
    ∃ t : Fin 5, 0 < autoTerm t 50 :=
  ⟨c6_theorem.1 0 (by norm_num), c6_theorem.2 50 (by norm_num) (by norm_num)⟩

/-- C7: any out-of-range input makes the call fail with the range error,
before fuzzification: the simulation state is returned unchanged, no
output is produced, and no plot file is written. -/
theorem c7_theorem (st : SimState) (incoming waiting : ℚ) (p : Bool) (fp : String)
    (h : ¬(0 ≤ incoming ∧ incoming ≤ 100) ∨ ¬(0 ≤ waiting ∧ waiting ≤ 100)) :
    ∃ e, compute_wait_time st incoming waiting p fp = (Except.error e, st, none) := by
  rcases h with h | h
  · refine ⟨"Incoming Cars must be between 0 and 100.", ?_⟩
    unfold compute_wait_time validate_input_range
    rw [if_neg h]
    rfl
  · by_cases hic : 0 ≤ incoming ∧ incoming ≤ 100
    · refine ⟨"Waiting Cars must be between 0 and 100.", ?_⟩
      unfold compute_wait_time validate_input_range
      rw [if_pos hic, if_neg h]
      rfl
    · refine ⟨"Incoming Cars must be between 0 and 100.", ?_⟩
      unfold compute_wait_time validate_input_range
      rw [if_neg hic]
      rfl

theorem c7_witness :
    ∃ e, compute_wait_time initialState 150 0 false "output" =
      (Except.error e, initialState, none) :=
  c7_theorem initialState 150 0 false "output" (Or.inl (by norm_num))

/-- C8: for every pair of in-range inputs the aggregated curve is positive
somewhere on the output universe (the medium clip level is at least 1/2),
so defuzzification succeeds and the NoRuleFiredError branch is not taken;
and on an identically zero curve the engine signals NoRuleFiredError
instead of dividing by zero. -/
theorem c8_theorem :
    (∀ incoming waiting : ℚ, 0 ≤ incoming → incoming ≤ 100 →
      0 ≤ waiting → waiting ≤ 100 →
      (∃ i : ℕ, i ≤ 160 ∧ 0 < aggregatedCurve incoming waiting i) ∧
      defuzzCentroid (aggregatedCurve incoming waiting) =
        Except.ok (crispWaitTime incoming waiting)) ∧
    (∀ μ : ℕ → ℚ, (∀ i, i ≤ 160 → μ i = 0) →
      defuzzCentroid μ = Except.error "NoRuleFiredError") := by
  constructor
  · intro ic wa h1 h2 h3 h4
    constructor
    · exact ⟨87, by norm_num, lt_of_lt_of_le (by norm_num) (agg87 ic wa h3 h4)⟩
    · unfold defuzzCentroid
      rw [if_neg (ne_of_gt (den_pos ic wa h3 h4))]
      rfl
  · intro μ h
    unfold defuzzCentroid
    rw [if_pos]
    unfold curveDen
    refine Finset.sum_eq_zero (fun i hi => h i ?_)
    have := Finset.mem_range.mp hi
    omega

theorem c8_witness :
    (∃ i : ℕ, i ≤ 160 ∧ 0 < aggregatedCurve 0 0 i) ∧
    defuzzCentroid (fun _ => (0:ℚ)) = Except.error "NoRuleFiredError" :=
  ⟨(c8_theorem.1 0 0 le_rfl (by norm_num) le_rfl (by norm_num)).1,
    c8_theorem.2 _ (fun i _ => rfl)⟩

/-- C9: the returned crisp value is a function of the crisp inputs only —
it does not depend on the state the shared simulation session is in, so
repeated calls with identical inputs, including calls after other
evaluations on the same session, return identical results. -/
theorem c9_theorem (st1 st2 : SimState) (incoming waiting : ℚ) (p : Bool) (fp : String) :
    (compute_wait_time st1 incoming waiting p fp).1 =
    (compute_wait_time st2 incoming waiting p fp).1 := by
  unfold compute_wait_time
  cases validate_input_range incoming "Incoming Cars" <;>
    cases validate_input_range waiting "Waiting Cars" <;>
      cases defuzzCentroid (aggregatedCurve incoming waiting) <;> rfl

/-- C10: the returned crisp value does not depend on the plot flag or the
filename prefix; the plotting branch only adds the side-effect file. -/
theorem c10_theorem (st : SimState) (incoming waiting : ℚ) (fp : String) :
    (compute_wait_time st incoming waiting true fp).1 =
    (compute_wait_time st incoming waiting false "output").1 := by
  unfold compute_wait_time
  cases validate_input_range incoming "Incoming Cars" <;>
    cases validate_input_range waiting "Waiting Cars" <;>
      cases defuzzCentroid (aggregatedCurve incoming waiting) <;> rfl

end FuzzyTraffic
